import Mathlib

set_option maxHeartbeats 1000000

namespace VtxLink

/-!
Shallow embedding of the vtx-link stream supervisor: the registry
(`state.rs`), the lifecycle engine (`engine.rs` `Engine::start_stream` /
`Engine::stop_stream`), one tick of the supervisor loop
(`supervisor.rs` `start_supervisor`) and the dispatch step of the HLS
handler (`web/hls.rs` `serve_hls_file`).

Modelling conventions:
- the two `HashMap`s of `AppState` are association lists keyed by stream
  name (the HashMaps always hold at most one binding per key);
- `Instant` is a natural number of seconds on a monotonic clock;
  `Instant::duration_since` is truncated (saturating) subtraction;
- u32 / u64 arithmetic is `Nat` with an explicit `% 2 ^ 32` / `% 2 ^ 64`
  where overflow matters (Rust release-mode wrapping semantics; a
  separate `Option`-valued variant captures debug-mode panics);
- the environment a call observes (memory probe, directory creation,
  process spawn, liveness poll) is passed in explicitly.
-/

/-- Model of `HashMap::get`: the value bound to `k`, if any. -/
def alookup (k : String) : List (String × α) → Option α
  | [] => none
  | (k', v) :: rest => if k' = k then some v else alookup k rest

/-- Model of `HashMap::insert` / mutation through `get_mut`: replaces the
binding for `k` in place if present, otherwise appends it. -/
def ainsert (k : String) (v : α) : List (String × α) → List (String × α)
  | [] => [(k, v)]
  | (k', v') :: rest => if k' = k then (k, v) :: rest else (k', v') :: ainsert k v rest

/-- Model of `HashMap::remove`: drops the binding for `k`. -/
def aerase (k : String) : List (String × α) → List (String × α)
  | [] => []
  | (k', v) :: rest => if k' = k then aerase k rest else (k', v) :: aerase k rest

/-- Number of bindings for key `k` (used to state "exactly one WorkerHandle"). -/
def countKey (k : String) : List (String × α) → Nat
  | [] => 0
  | (k', _) :: rest => if k' = k then countKey k rest + 1 else countKey k rest

/-- state.rs `StreamRuntime` (the WorkerHandle): the `tokio::process::Child`
is abstracted to a process id that the environment's liveness poll is
indexed by. -/
structure StreamRuntime where
  pid : Nat
  last_accessed : Nat
  started_at : Nat
  deriving DecidableEq, Repr

/-- state.rs `StreamRecoveryState`. `crash_count` is a u32 in the source. -/
structure StreamRecoveryState where
  crash_count : Nat
  next_retry_at : Option Nat
  deriving DecidableEq, Repr

/-- config.rs `RetryPolicy`. `max_attempts = 0` means unlimited retries. -/
structure RetryPolicy where
  max_attempts : Nat
  initial_backoff_sec : Nat
  max_backoff_sec : Nat
  deriving DecidableEq, Repr

/-- config.rs `StreamConfig`. -/
structure StreamConfig where
  name : String
  source : String
  output_args : List String
  auto_start : Bool
  idle_timeout : Nat
  retry : RetryPolicy
  deriving DecidableEq, Repr

/-- config.rs `AppConfig`. The `ServerConfig` fields (listen address,
ffmpeg binary path, hls root, loop interval) only parameterise I/O that
is abstracted into the call environments, so they are omitted. -/
structure AppConfig where
  streams : List StreamConfig
  deriving DecidableEq, Repr

/-- state.rs `AppState`: the registry (both maps) plus the immutable config. -/
structure AppState where
  config : AppConfig
  active_streams : List (String × StreamRuntime)
  recovery_states : List (String × StreamRecoveryState)
  deriving DecidableEq, Repr

/-- The distinguishable outcomes of `Engine::start_stream`. -/
inductive StartResult where
  | ok
  | errMem
  | errNotFound
  | errDir
  | errSpawn
  deriving DecidableEq, Repr

/-- Environment observed by one `start_stream` call: the result of
`sys_info::mem_info()` (`some` available KB, or `none` for `Err`),
whether `create_dir_all` succeeds, and the result of `Command::spawn`
(`some` pid, or `none` for a spawn error). -/
structure StartEnv where
  mem : Option Nat
  dirOk : Bool
  spawn : Option Nat
  deriving DecidableEq, Repr

/-- Result record of one `start_stream` call: the returned `Result`, whether
a child process was spawned, and the registry state after the call. -/
structure StartOut where
  res : StartResult
  spawned : Bool
  state : AppState
  deriving DecidableEq, Repr

/-- engine.rs step 2: the memory floor check. `mem.avail < 5120` fails the
call; a failed probe (`Err`) only logs a warning and lets the call proceed. -/
def memTooLow (mem : Option Nat) : Bool :=
  match mem with
  | some avail => decide (avail < 5120)
  | none => false

/-- engine.rs `Engine::start_stream`, step for step:
1. already-active check (refreshes `last_accessed`, returns `Ok`);
2. memory floor check;
3. config lookup;
4. output directory preparation (`remove_dir_all` errors are discarded,
   `create_dir_all` errors propagate);
5. spawn;
6. insert the new `StreamRuntime` into `active_streams`;
7. reset an existing recovery entry to `crash_count = 0`,
   `next_retry_at = None`. -/
def start_stream (env : StartEnv) (now : Nat) (st : AppState) (name : String) : StartOut :=
  match alookup name st.active_streams with
  | some running =>
      let touched := ainsert name { running with last_accessed := now } st.active_streams
      { res := .ok, spawned := false, state := { st with active_streams := touched } }
  | none =>
    if memTooLow env.mem then
      { res := .errMem, spawned := false, state := st }
    else
      match st.config.streams.find? (fun s => s.name == name) with
      | none => { res := .errNotFound, spawned := false, state := st }
      | some _cfg =>
        if !env.dirOk then
          { res := .errDir, spawned := false, state := st }
        else
          match env.spawn with
          | none => { res := .errSpawn, spawned := false, state := st }
          | some pid =>
            let active1 :=
              ainsert name { pid := pid, last_accessed := now, started_at := now }
                st.active_streams
            let recovery1 :=
              match alookup name st.recovery_states with
              | some r =>
                  ainsert name { r with crash_count := 0, next_retry_at := none }
                    st.recovery_states
              | none => st.recovery_states
            { res := .ok, spawned := true,
              state := { st with active_streams := active1, recovery_states := recovery1 } }

/-- engine.rs `Engine::stop_stream`: remove the active entry under the lock,
then best-effort kill the process (`killOk` is the kill outcome; it is
discarded by `let _ = ...`). The function's only return value is `Ok(())`. -/
def stop_stream (killOk : Bool) (st : AppState) (name : String) :
    StartResult × AppState :=
  let next := { st with active_streams := aerase name st.active_streams }
  match killOk with
  | true => (.ok, next)
  | false => (.ok, next)

/-- supervisor.rs phase 3 backoff with Rust release-mode (wrapping) u64
semantics: `min(max_backoff_sec, initial_backoff_sec * 2u64.pow(crash_count))`,
every u64 operation reduced mod `2 ^ 64`. -/
def backoff_u64 (maxB initB cc : Nat) : Nat :=
  min maxB ((initB * (2 ^ cc % 2 ^ 64)) % 2 ^ 64)

/-- The same computation with Rust debug-mode u64 semantics: `none` when
`2u64.pow(cc)` or the multiplication overflows (a panic in the source). -/
def backoff_u64_checked (maxB initB cc : Nat) : Option Nat :=
  if 2 ^ cc < 2 ^ 64 then
    if initB * 2 ^ cc < 2 ^ 64 then some (min maxB (initB * 2 ^ cc)) else none
  else none

/-- Follows the spec's words rather than the source (for comparison with
`backoff_u64`): the saturating backoff the spec mandates, computed over
unbounded naturals so the `min` clamp makes it total and at most `maxB`. -/
def backoff_spec_saturating (maxB initB cc : Nat) : Nat :=
  min maxB (initB * 2 ^ cc)

/-- Outcome of `process.try_wait()` in supervisor.rs phase 1:
`Ok(Some(status))` (the process exited), `Ok(None)` (still running), or
`Err(e)` (only logged; the entry then still reaches the idle check). -/
inductive PollRes where
  | exited
  | running
  | pollErr
  deriving DecidableEq, Repr

/-- Environment observed by one supervisor tick: the tick's `now`, the
non-blocking liveness poll (indexed by process id), the kill outcome for
each stopped stream, and the `start_stream` environment for each phase-4
restart attempt. -/
structure TickEnv where
  now : Nat
  poll : Nat → PollRes
  killOk : String → Bool
  senv : String → StartEnv

/-- supervisor.rs phase 1 idle test for one live entry: config present,
`idle_timeout > 0`, and `now.duration_since(last_accessed).as_secs()`
strictly greater than `idle_timeout`. -/
def idleExpired (cfg : AppConfig) (now : Nat) (name : String) (rt : StreamRuntime) : Bool :=
  match cfg.streams.find? (fun s => s.name == name) with
  | some c => decide (0 < c.idle_timeout) && decide (c.idle_timeout < now - rt.last_accessed)
  | none => false

/-- supervisor.rs phase 1: one pass over `active_streams` producing
`(streams_to_kill, streams_crashed)` in iteration order. An exited
process is queued as crashed and skips the idle check (`continue`); a
running process — or one whose poll returned an error — is subject to
the idle check. -/
def phase1 (env : TickEnv) (cfg : AppConfig) :
    List (String × StreamRuntime) → List String × List String
  | [] => ([], [])
  | (name, rt) :: rest =>
    let tail := phase1 env cfg rest
    match env.poll rt.pid with
    | .exited => (tail.1, name :: tail.2)
    | .running =>
        if idleExpired cfg env.now name rt then (name :: tail.1, tail.2) else tail
    | .pollErr =>
        if idleExpired cfg env.now name rt then (name :: tail.1, tail.2) else tail

/-- End of supervisor.rs phase 1: the crashed entries are removed from the
active map before the lock is released. -/
def removeCrashed (crashes : List String)
    (active : List (String × StreamRuntime)) : List (String × StreamRuntime) :=
  crashes.foldl (fun m n => aerase n m) active

/-- supervisor.rs phase 2: `Engine::stop_stream` for every idle-expired
name (the `Result` is discarded). -/
def phase2 (env : TickEnv) (kills : List String) (st : AppState) : AppState :=
  kills.foldl (fun s n => (stop_stream (env.killOk n) s n).2) st

/-- supervisor.rs phase 3, one crashed name: `entry(name).or_insert`
a zero recovery state; if the stream is configured, either give up
(`max_attempts` bounded and already reached: `continue`, leaving the
entry as inserted) or schedule the next retry with the exponential
backoff, incrementing `crash_count` (a u32 in the source). -/
def phase3step (env : TickEnv) (cfg : AppConfig)
    (recMap : List (String × StreamRecoveryState)) (name : String) :
    List (String × StreamRecoveryState) :=
  let inserted :=
    match alookup name recMap with
    | some r => (recMap, r)
    | none =>
      let z : StreamRecoveryState := { crash_count := 0, next_retry_at := none }
      (ainsert name z recMap, z)
  match cfg.streams.find? (fun s => s.name == name) with
  | none => inserted.1
  | some c =>
    if 0 < c.retry.max_attempts ∧ c.retry.max_attempts ≤ inserted.2.crash_count then
      inserted.1
    else
      let backoff :=
        backoff_u64 c.retry.max_backoff_sec c.retry.initial_backoff_sec
          inserted.2.crash_count
      let r' : StreamRecoveryState :=
        { crash_count := (inserted.2.crash_count + 1) % 2 ^ 32,
          next_retry_at := some (env.now + backoff) }
      ainsert name r' inserted.1

/-- supervisor.rs phase 3 over the whole crash list. -/
def phase3 (env : TickEnv) (cfg : AppConfig) (crashes : List String)
    (recMap : List (String × StreamRecoveryState)) :
    List (String × StreamRecoveryState) :=
  crashes.foldl (phase3step env cfg) recMap

/-- supervisor.rs phase 4 eligibility (`should_start`): no recovery entry
means eligible; `next_retry_at = None` with `crash_count > 0` means given
up; `next_retry_at = Some(t)` means eligible once `now` reaches `t`. -/
def eligibleForRestart (recMap : List (String × StreamRecoveryState))
    (now : Nat) (name : String) : Bool :=
  match alookup name recMap with
  | none => true
  | some r =>
    if r.next_retry_at = none ∧ 0 < r.crash_count then false
    else
      match r.next_retry_at with
      | some t => decide (t ≤ now)
      | none => true

/-- supervisor.rs phase 4: for every configured stream with `auto_start`,
skip it if active, otherwise call `start_stream` when eligible (a failure
is only logged). -/
def phase4 (env : TickEnv) (st : AppState) : AppState :=
  st.config.streams.foldl
    (fun s c =>
      if !c.auto_start then s
      else if (alookup c.name s.active_streams).isSome then s
      else if eligibleForRestart s.recovery_states env.now c.name then
        (start_stream (env.senv c.name) env.now s c.name).state
      else s)
    st

/-- The `(streams_to_kill, streams_crashed)` pair of one tick's phase 1. -/
def tickScan (env : TickEnv) (st : AppState) : List String × List String :=
  phase1 env st.config st.active_streams

/-- The tick's `streams_to_kill` list. -/
def tickKills (env : TickEnv) (st : AppState) : List String :=
  (tickScan env st).1

/-- The tick's `streams_crashed` list. -/
def tickCrashes (env : TickEnv) (st : AppState) : List String :=
  (tickScan env st).2

/-- State at the end of phase 1 (crashed entries removed). -/
def tickAfterScan (env : TickEnv) (st : AppState) : AppState :=
  { st with active_streams := removeCrashed (tickCrashes env st) st.active_streams }

/-- State at the end of phase 2 (idle-expired entries stopped). -/
def tickAfterStops (env : TickEnv) (st : AppState) : AppState :=
  phase2 env (tickKills env st) (tickAfterScan env st)

/-- State at the end of phase 3 (backoff scheduled for the crash list). -/
def tickAfterBackoff (env : TickEnv) (st : AppState) : AppState :=
  let st2 := tickAfterStops env st
  let rec3 := phase3 env st.config (tickCrashes env st) st2.recovery_states
  { st2 with recovery_states := rec3 }

/-- One full tick of supervisor.rs `start_supervisor`: phases 1 to 4. -/
def supervisorTick (env : TickEnv) (st : AppState) : AppState :=
  phase4 env (tickAfterBackoff env st)

/-- Character-wise prefix test (helper for the suffix test below). -/
def prefixCheck : List Char → List Char → Bool
  | [], _ => true
  | _ :: _, [] => false
  | a :: as, b :: bs => a == b && prefixCheck as bs

/-- Model of Rust `str::ends_with` (used by hls.rs on the file name):
the pattern is a suffix of the string. -/
def ends_with (s post : String) : Bool :=
  prefixCheck post.data.reverse s.data.reverse

/-- What the dispatch step of hls.rs `serve_hls_file` decides: fall through
to serving the file, fail because the `.m3u8` auto-start failed, or reject
a chunk request for a stream that is not running (404). -/
inductive HlsStep where
  | serveFile
  | startFailed (e : StartResult)
  | notRunning
  deriving DecidableEq, Repr

/-- Result record of the hls.rs dispatch step. -/
structure HlsOut where
  step : HlsStep
  spawned : Bool
  state : AppState
  deriving DecidableEq, Repr

/-- hls.rs `serve_hls_file`, step 1: an `.m3u8` request calls
`Engine::start_stream` (an error becomes a 500 response via `?`); any
other request only refreshes `last_accessed` of an active entry and is a
hard 404 when the stream is not active. The later file-open I/O is out
of scope of the modelled claims. -/
def serve_hls_file (senv : StartEnv) (now : Nat) (st : AppState)
    (stream_name file_name : String) : HlsOut :=
  if ends_with file_name ".m3u8" then
    let out := start_stream senv now st stream_name
    match out.res with
    | .ok => { step := .serveFile, spawned := out.spawned, state := out.state }
    | e => { step := .startFailed e, spawned := out.spawned, state := out.state }
  else
    match alookup stream_name st.active_streams with
    | some running =>
      let touched := ainsert stream_name { running with last_accessed := now } st.active_streams
      { step := .serveFile, spawned := false, state := { st with active_streams := touched } }
    | none => { step := .notRunning, spawned := false, state := st }

/-! Concrete scenario used to exercise the give-up boundary: one stream
`cam` with `auto_start = true`, `idle_timeout = 0` and retry policy
`max_attempts = 3, initial_backoff_sec = 2, max_backoff_sec = 60`
(the parameters named by the spec's give-up and backoff properties).
Every spawn succeeds and every spawned process is observed dead by the
next tick, so the stream crashes on every tick on which it runs. -/

/-- Retry policy `max_attempts = 3, initial_backoff = 2, max_backoff = 60`. -/
def demoRetry : RetryPolicy :=
  { max_attempts := 3, initial_backoff_sec := 2, max_backoff_sec := 60 }

/-- One configured stream `cam`, auto-started, never idle-evicted. -/
def demoCfg : AppConfig :=
  { streams := [{ name := "cam", source := "rtsp://upstream/cam", output_args := [],
                  auto_start := true, idle_timeout := 0, retry := demoRetry }] }

/-- Call environment where the memory probe, directory preparation and
spawn all succeed. -/
def demoSenv : StartEnv := { mem := some 100000, dirOk := true, spawn := some 1 }

/-- Tick environment at time `t`: every active process is observed exited,
restart attempts run under `demoSenv`. -/
def demoEnv (t : Nat) : TickEnv :=
  { now := t, poll := fun _ => .exited, killOk := fun _ => true,
    senv := fun _ => demoSenv }

/-- Empty registry with the demo configuration. -/
def demoInit : AppState :=
  { config := demoCfg, active_streams := [], recovery_states := [] }

/-- The registry right after the first (manual) start of `cam` at `t = 0`. -/
def demoStart : AppState := (start_stream demoSenv 0 demoInit "cam").state

/-- Run one supervisor tick per listed time, starting from `demoStart`. -/
def demoRun (ts : List Nat) : AppState :=
  ts.foldl (fun s t => supervisorTick (demoEnv t) s) demoStart

/-! Association-list lemmas. -/

theorem alookup_ainsert_self (k : String) (v : α) (l : List (String × α)) :
    alookup k (ainsert k v l) = some v := by
  induction l with
  | nil => simp [ainsert, alookup]
  | cons p rest ih =>
    obtain ⟨k', v'⟩ := p
    by_cases h : k' = k
    · simp [ainsert, alookup, h]
    · simp [ainsert, alookup, h, ih]

theorem alookup_ainsert_ne (k k' : String) (v : α) (l : List (String × α))
    (h : k' ≠ k) : alookup k' (ainsert k v l) = alookup k' l := by
  have h' : k ≠ k' := Ne.symm h
  induction l with
  | nil => simp [ainsert, alookup, h']
  | cons p rest ih =>
    obtain ⟨k₀, v₀⟩ := p
    by_cases h0 : k₀ = k
    · subst h0
      simp [ainsert, alookup, h']
    · simp only [ainsert, if_neg h0, alookup]
      by_cases h1 : k₀ = k'
      · simp [h1]
      · simp [h1, ih]

theorem alookup_aerase_self (k : String) (l : List (String × α)) :
    alookup k (aerase k l) = none := by
  induction l with
  | nil => simp [aerase, alookup]
  | cons p rest ih =>
    obtain ⟨k', v'⟩ := p
    by_cases h : k' = k
    · simpa [aerase, h] using ih
    · simpa [aerase, alookup, h] using ih

theorem alookup_aerase_ne (k k' : String) (l : List (String × α))
    (h : k' ≠ k) : alookup k' (aerase k l) = alookup k' l := by
  induction l with
  | nil => simp [aerase]
  | cons p rest ih =>
    obtain ⟨k₀, v₀⟩ := p
    by_cases h0 : k₀ = k
    · have h' : k ≠ k' := Ne.symm h
      simp [aerase, alookup, h0, h', ih]
    · simp only [aerase, if_neg h0, alookup]
      by_cases h1 : k₀ = k'
      · simp [h1]
      · simp [h1, ih]

theorem alookup_eq_none_iff (k : String) (l : List (String × α)) :
    alookup k l = none ↔ k ∉ l.map Prod.fst := by
  induction l with
  | nil => simp [alookup]
  | cons p rest ih =>
    obtain ⟨k', v'⟩ := p
    by_cases h : k' = k
    · simp [alookup, h]
    · have h' : k ≠ k' := Ne.symm h
      simp [alookup, h, ih, h']

theorem aerase_eq_of_lookup_none (k : String) (l : List (String × α))
    (h : alookup k l = none) : aerase k l = l := by
  induction l with
  | nil => rfl
  | cons p rest ih =>
    obtain ⟨k', v'⟩ := p
    by_cases h0 : k' = k
    · simp [alookup, h0] at h
    · simp only [alookup, if_neg h0] at h
      simp [aerase, h0, ih h]

theorem countKey_eq_zero_of_lookup_none (k : String) (l : List (String × α))
    (h : alookup k l = none) : countKey k l = 0 := by
  induction l with
  | nil => rfl
  | cons p rest ih =>
    obtain ⟨k', v'⟩ := p
    by_cases h0 : k' = k
    · simp [alookup, h0] at h
    · simp only [alookup, if_neg h0] at h
      simp [countKey, h0, ih h]

theorem countKey_ainsert_of_lookup_none (k : String) (v : α) (l : List (String × α))
    (h : alookup k l = none) : countKey k (ainsert k v l) = countKey k l + 1 := by
  induction l with
  | nil => simp [ainsert, countKey]
  | cons p rest ih =>
    obtain ⟨k', v'⟩ := p
    by_cases h0 : k' = k
    · simp [alookup, h0] at h
    · simp only [alookup, if_neg h0] at h
      simp [ainsert, countKey, h0, ih h]

theorem countKey_ainsert_of_lookup_some (k : String) (v r : α) (l : List (String × α))
    (h : alookup k l = some r) : countKey k (ainsert k v l) = countKey k l := by
  induction l with
  | nil => simp [alookup] at h
  | cons p rest ih =>
    obtain ⟨k', v'⟩ := p
    by_cases h0 : k' = k
    · simp [ainsert, countKey, h0]
    · simp only [alookup, if_neg h0] at h
      simp [ainsert, countKey, h0, ih h]

theorem alookup_foldl_aerase_none (k : String) (ns : List String)
    (l : List (String × α)) (h : alookup k l = none) :
    alookup k (ns.foldl (fun m n => aerase n m) l) = none := by
  induction ns generalizing l with
  | nil => simpa using h
  | cons n rest ih =>
    simp only [List.foldl]
    by_cases h0 : k = n
    · exact ih (aerase n l) (by simpa [h0] using alookup_aerase_self n l)
    · exact ih (aerase n l) (by simpa [alookup_aerase_ne n k l h0] using h)

theorem alookup_foldl_aerase_of_mem (k : String) (ns : List String)
    (l : List (String × α)) (h : k ∈ ns) :
    alookup k (ns.foldl (fun m n => aerase n m) l) = none := by
  induction ns generalizing l with
  | nil => cases h
  | cons n rest ih =>
    simp only [List.foldl]
    by_cases h0 : k = n
    · exact alookup_foldl_aerase_none k rest (aerase n l)
        (by simpa [h0] using alookup_aerase_self n l)
    · have : k ∈ rest := by
        rcases List.mem_cons.mp h with h1 | h1
        · exact absurd h1 h0
        · exact h1
      exact ih (aerase n l) this

theorem alookup_foldl_aerase_of_not_mem (k : String) (ns : List String)
    (l : List (String × α)) (h : k ∉ ns) :
    alookup k (ns.foldl (fun m n => aerase n m) l) = alookup k l := by
  induction ns generalizing l with
  | nil => rfl
  | cons n rest ih =>
    simp only [List.foldl]
    have hk : k ≠ n := fun hh => h (by simp [hh])
    have hr : k ∉ rest := fun hh => h (by simp [hh])
    rw [ih (aerase n l) hr, alookup_aerase_ne n k l hk]

/-! Supervisor phase lemmas. -/

theorem phase1_mem_keys (env : TickEnv) (cfg : AppConfig)
    (l : List (String × StreamRuntime)) (name : String) :
    (name ∈ (phase1 env cfg l).1 → name ∈ l.map Prod.fst) ∧
    (name ∈ (phase1 env cfg l).2 → name ∈ l.map Prod.fst) := by
  induction l with
  | nil => simp [phase1]
  | cons p rest ih =>
    obtain ⟨k, rt⟩ := p
    simp only [phase1, List.map, List.mem_cons]
    cases env.poll rt.pid with
    | exited =>
      constructor
      · intro hm
        exact Or.inr (ih.1 hm)
      · intro hm
        rcases List.mem_cons.mp hm with h1 | h1
        · exact Or.inl h1
        · exact Or.inr (ih.2 h1)
    | running =>
      by_cases hi : idleExpired cfg env.now k rt = true
      · simp only [hi, if_pos rfl]
        constructor
        · intro hm
          rcases List.mem_cons.mp hm with h1 | h1
          · exact Or.inl h1
          · exact Or.inr (ih.1 h1)
        · intro hm
          exact Or.inr (ih.2 hm)
      · simp only [Bool.not_eq_true] at hi
        simp only [hi]
        constructor
        · intro hm
          simp only [Bool.false_eq_true, if_false] at hm
          exact Or.inr (ih.1 hm)
        · intro hm
          simp only [Bool.false_eq_true, if_false] at hm
          exact Or.inr (ih.2 hm)
    | pollErr =>
      by_cases hi : idleExpired cfg env.now k rt = true
      · simp only [hi, if_pos rfl]
        constructor
        · intro hm
          rcases List.mem_cons.mp hm with h1 | h1
          · exact Or.inl h1
          · exact Or.inr (ih.1 h1)
        · intro hm
          exact Or.inr (ih.2 hm)
      · simp only [Bool.not_eq_true] at hi
        simp only [hi]
        constructor
        · intro hm
          simp only [Bool.false_eq_true, if_false] at hm
          exact Or.inr (ih.1 hm)
        · intro hm
          simp only [Bool.false_eq_true, if_false] at hm
          exact Or.inr (ih.2 hm)

theorem phase1_not_mem_of_lookup_none (env : TickEnv) (cfg : AppConfig)
    (l : List (String × StreamRuntime)) (name : String)
    (h : alookup name l = none) :
    name ∉ (phase1 env cfg l).1 ∧ name ∉ (phase1 env cfg l).2 := by
  have hk : name ∉ l.map Prod.fst := (alookup_eq_none_iff name l).mp h
  exact ⟨fun hm => hk ((phase1_mem_keys env cfg l name).1 hm),
         fun hm => hk ((phase1_mem_keys env cfg l name).2 hm)⟩

/-- Phase-1 classification of one entry, under the HashMap invariant that
keys are unique: a worker is queued as crashed exactly when its poll says
it exited, and queued for idle stop exactly when it did not exit and its
idle timeout is exceeded. -/
theorem phase1_lookup_spec (env : TickEnv) (cfg : AppConfig)
    (l : List (String × StreamRuntime)) (name : String) (rt : StreamRuntime)
    (hnodup : (l.map Prod.fst).Nodup) (h : alookup name l = some rt) :
    (name ∈ (phase1 env cfg l).2 ↔ env.poll rt.pid = .exited) ∧
    (name ∈ (phase1 env cfg l).1 ↔
      (env.poll rt.pid ≠ .exited ∧ idleExpired cfg env.now name rt = true)) := by
  induction l with
  | nil => simp [alookup] at h
  | cons p rest ih =>
    obtain ⟨k, rt'⟩ := p
    simp only [List.map, List.nodup_cons] at hnodup
    by_cases hk : k = name
    · subst hk
      simp only [alookup, if_pos rfl] at h
      have hrt : rt' = rt := Option.some.inj h
      subst hrt
      have hrest : alookup k rest = none :=
        (alookup_eq_none_iff k rest).mpr hnodup.1
      have hno := phase1_not_mem_of_lookup_none env cfg rest k hrest
      cases hp : env.poll rt'.pid with
      | exited => simp [phase1, hp, hno.1, hno.2]
      | running =>
        by_cases hi : idleExpired cfg env.now k rt' = true
        · simp [phase1, hp, hi, hno.1, hno.2]
        · simp only [Bool.not_eq_true] at hi
          simp [phase1, hp, hi, hno.1, hno.2]
      | pollErr =>
        by_cases hi : idleExpired cfg env.now k rt' = true
        · simp [phase1, hp, hi, hno.1, hno.2]
        · simp only [Bool.not_eq_true] at hi
          simp [phase1, hp, hi, hno.1, hno.2]
    · simp only [alookup, if_neg hk] at h
      have hrec := ih hnodup.2 h
      have hne : name ≠ k := fun hh => hk hh.symm
      cases hp : env.poll rt'.pid with
      | exited => simp [phase1, hp, hne, hrec.1, hrec.2]
      | running =>
        by_cases hi : idleExpired cfg env.now k rt' = true
        · simp [phase1, hp, hi, hne, hrec.1, hrec.2]
        · simp only [Bool.not_eq_true] at hi
          simp [phase1, hp, hi, hne, hrec.1, hrec.2]
      | pollErr =>
        by_cases hi : idleExpired cfg env.now k rt' = true
        · simp [phase1, hp, hi, hne, hrec.1, hrec.2]
        · simp only [Bool.not_eq_true] at hi
          simp [phase1, hp, hi, hne, hrec.1, hrec.2]

/-! Phase-2 / phase-3 frame lemmas and start/stop characterizations. -/

theorem stop_stream_snd (killOk : Bool) (st : AppState) (name : String) :
    (stop_stream killOk st name).2 =
      { st with active_streams := aerase name st.active_streams } := by
  cases killOk <;> rfl

theorem stop_stream_fst (killOk : Bool) (st : AppState) (name : String) :
    (stop_stream killOk st name).1 = .ok := by
  cases killOk <;> rfl

theorem phase2_cons (env : TickEnv) (n : String) (rest : List String) (st : AppState) :
    phase2 env (n :: rest) st = phase2 env rest ((stop_stream (env.killOk n) st n).2) := rfl

theorem phase2_config (env : TickEnv) (ks : List String) (st : AppState) :
    (phase2 env ks st).config = st.config := by
  induction ks generalizing st with
  | nil => rfl
  | cons n rest ih =>
    rw [phase2_cons, ih, stop_stream_snd]

theorem phase2_recovery (env : TickEnv) (ks : List String) (st : AppState) :
    (phase2 env ks st).recovery_states = st.recovery_states := by
  induction ks generalizing st with
  | nil => rfl
  | cons n rest ih =>
    rw [phase2_cons, ih, stop_stream_snd]

theorem phase2_active (env : TickEnv) (ks : List String) (st : AppState) :
    (phase2 env ks st).active_streams =
      ks.foldl (fun m n => aerase n m) st.active_streams := by
  induction ks generalizing st with
  | nil => rfl
  | cons n rest ih =>
    rw [phase2_cons, ih, stop_stream_snd]
    rfl

theorem phase3_cons (env : TickEnv) (cfg : AppConfig) (n : String)
    (rest : List String) (rm : List (String × StreamRecoveryState)) :
    phase3 env cfg (n :: rest) rm = phase3 env cfg rest (phase3step env cfg rm n) := rfl

theorem alookup_phase3step_ne (env : TickEnv) (cfg : AppConfig)
    (rm : List (String × StreamRecoveryState)) (n name : String) (h : name ≠ n) :
    alookup name (phase3step env cfg rm n) = alookup name rm := by
  unfold phase3step
  cases halo : alookup n rm with
  | some r =>
    cases hf : cfg.streams.find? (fun s => s.name == n) with
    | none => simp [halo, hf]
    | some c =>
      by_cases hg : 0 < c.retry.max_attempts ∧ c.retry.max_attempts ≤ r.crash_count
      · simp [halo, hf, hg]
      · simp [halo, hf, hg, alookup_ainsert_ne n name _ rm h]
  | none =>
    cases hf : cfg.streams.find? (fun s => s.name == n) with
    | none => simp [halo, hf, alookup_ainsert_ne n name _ rm h]
    | some c =>
      simp only [phase3step, halo, hf]
      split <;> simp [alookup_ainsert_ne, h]

theorem alookup_phase3_not_mem (env : TickEnv) (cfg : AppConfig)
    (crashes : List String) (rm : List (String × StreamRecoveryState))
    (name : String) (h : name ∉ crashes) :
    alookup name (phase3 env cfg crashes rm) = alookup name rm := by
  induction crashes generalizing rm with
  | nil => rfl
  | cons n rest ih =>
    have hne : name ≠ n := fun hh => h (by simp [hh])
    have hr : name ∉ rest := fun hh => h (by simp [hh])
    rw [phase3_cons, ih (phase3step env cfg rm n) hr,
      alookup_phase3step_ne env cfg rm n name hne]

theorem start_stream_refresh (env : StartEnv) (now : Nat) (st : AppState)
    (name : String) (rt : StreamRuntime)
    (h : alookup name st.active_streams = some rt) :
    start_stream env now st name =
      { res := .ok, spawned := false,
        state := { st with active_streams := ainsert name { rt with last_accessed := now } st.active_streams } } := by
  simp [start_stream, h]

theorem start_stream_error_frame (env : StartEnv) (now : Nat) (st : AppState)
    (name : String) (h : (start_stream env now st name).res ≠ .ok) :
    (start_stream env now st name).state = st ∧
    (start_stream env now st name).spawned = false := by
  cases hA : alookup name st.active_streams with
  | some rt =>
    exact absurd (by simp [start_stream, hA]) h
  | none =>
    by_cases hM : memTooLow env.mem = true
    · simp [start_stream, hA, hM]
    · simp only [Bool.not_eq_true] at hM
      cases hF : st.config.streams.find? (fun s => s.name == name) with
      | none => simp [start_stream, hA, hM, hF]
      | some c =>
        cases hD : env.dirOk with
        | false => simp [start_stream, hA, hM, hF, hD]
        | true =>
          cases hS : env.spawn with
          | none => simp [start_stream, hA, hM, hF, hD, hS]
          | some pid =>
            exact absurd (by simp [start_stream, hA, hM, hF, hD, hS]) h

theorem start_stream_ok_of_none (env : StartEnv) (now : Nat) (st : AppState)
    (name : String) (hA : alookup name st.active_streams = none)
    (hres : (start_stream env now st name).res = .ok) :
    ∃ pid, env.spawn = some pid ∧
      (start_stream env now st name).spawned = true ∧
      (start_stream env now st name).state.active_streams =
        ainsert name { pid := pid, last_accessed := now, started_at := now }
          st.active_streams := by
  by_cases hM : memTooLow env.mem = true
  · simp [start_stream, hA, hM] at hres
  · simp only [Bool.not_eq_true] at hM
    cases hF : st.config.streams.find? (fun s => s.name == name) with
    | none => simp [start_stream, hA, hM, hF] at hres
    | some c =>
      cases hD : env.dirOk with
      | false => simp [start_stream, hA, hM, hF, hD] at hres
      | true =>
        cases hS : env.spawn with
        | none => simp [start_stream, hA, hM, hF, hD, hS] at hres
        | some pid =>
          refine ⟨pid, rfl, ?_, ?_⟩ <;> simp [start_stream, hA, hM, hF, hD, hS]

theorem start_stream_errMem_iff (env : StartEnv) (now : Nat) (st : AppState)
    (name : String) (hA : alookup name st.active_streams = none) :
    ((start_stream env now st name).res = .errMem ↔ memTooLow env.mem = true) := by
  by_cases hM : memTooLow env.mem = true
  · simp [start_stream, hA, hM]
  · simp only [Bool.not_eq_true] at hM
    cases hF : st.config.streams.find? (fun s => s.name == name) with
    | none => simp [start_stream, hA, hM, hF]
    | some c =>
      cases hD : env.dirOk with
      | false => simp [start_stream, hA, hM, hF, hD]
      | true =>
        cases hS : env.spawn with
        | none => simp [start_stream, hA, hM, hF, hD, hS]
        | some pid => simp [start_stream, hA, hM, hF, hD, hS]

theorem start_stream_mem_failure_eq (env : StartEnv) (now : Nat) (st : AppState)
    (name : String) (hmem : env.mem = none) :
    start_stream env now st name =
      start_stream { env with mem := some 5120 } now st name := by
  cases hA : alookup name st.active_streams with
  | some rt => simp [start_stream, hA]
  | none => simp [start_stream, hA, memTooLow, hmem]

/-- A file name ending in `.ts` never ends in `.m3u8` (the two suffixes
differ in their final character). -/
theorem ts_not_m3u8 (f : String) (h : ends_with f ".ts" = true) :
    ends_with f ".m3u8" = false := by
  unfold ends_with at h ⊢
  have h1 : (".ts" : String).data.reverse = ['s', 't', '.'] := rfl
  have h2 : (".m3u8" : String).data.reverse = ['8', 'u', '3', 'm', '.'] := rfl
  rw [h1] at h
  rw [h2]
  cases hr : f.data.reverse with
  | nil => rw [hr] at h; simp [prefixCheck] at h
  | cons c cs =>
    rw [hr] at h
    simp only [prefixCheck, Bool.and_eq_true, beq_iff_eq] at h
    have hc : c = 's' := h.1.symm
    subst hc
    simp [prefixCheck]

/-! Claim theorems. -/

/-- C3: the phase-3 backoff computation does not saturate. At
crash_count = 63 with initial_backoff = 2 and max_backoff = 60 the u64
multiplication `2 * 2u64.pow(63)` overflows: under debug semantics the
computation panics (it is not total), and under release (wrapping)
semantics it yields 0 instead of the saturated value max_backoff = 60
that the spec mandates. -/
theorem backoff_overflow_at_63 :
    backoff_u64_checked 60 2 63 = none ∧
    backoff_u64 60 2 63 = 0 ∧
    backoff_spec_saturating 60 2 63 = 60 ∧
    backoff_u64 60 2 63 ≠ backoff_spec_saturating 60 2 63 := by
  exact ⟨by decide, by decide, by decide, by decide⟩

/-- C4: a start on an already-active stream returns success, spawns no
process, inserts no new WorkerHandle and only refreshes that entry's
last_accessed timestamp; consequently two consecutive starts, the first
succeeding from a not-active state, spawn exactly one process and leave
exactly one WorkerHandle for the name. -/
theorem start_idempotent :
    (∀ (env : StartEnv) (now : Nat) (st : AppState) (name : String) (rt : StreamRuntime),
      alookup name st.active_streams = some rt →
      start_stream env now st name =
        { res := .ok, spawned := false,
          state := { st with active_streams := ainsert name { rt with last_accessed := now } st.active_streams } }) ∧
    (∀ (env1 env2 : StartEnv) (now1 now2 : Nat) (st : AppState) (name : String),
      alookup name st.active_streams = none →
      (start_stream env1 now1 st name).res = .ok →
      (start_stream env1 now1 st name).spawned = true ∧
      (start_stream env2 now2 (start_stream env1 now1 st name).state name).res = .ok ∧
      (start_stream env2 now2 (start_stream env1 now1 st name).state name).spawned = false ∧
      countKey name (start_stream env2 now2 (start_stream env1 now1 st name).state name).state.active_streams = 1) := by
  constructor
  · intro env now st name rt h
    exact start_stream_refresh env now st name rt h
  · intro env1 env2 now1 now2 st name hA hres
    obtain ⟨pid, _hs, hspawned, hactive⟩ := start_stream_ok_of_none env1 now1 st name hA hres
    have hlook : alookup name (start_stream env1 now1 st name).state.active_streams =
        some { pid := pid, last_accessed := now1, started_at := now1 } := by
      rw [hactive]
      exact alookup_ainsert_self name _ st.active_streams
    have h2 := start_stream_refresh env2 now2 (start_stream env1 now1 st name).state name _ hlook
    refine ⟨hspawned, ?_, ?_, ?_⟩
    · rw [h2]
    · rw [h2]
    · rw [h2]
      have hc0 : countKey name st.active_streams = 0 :=
        countKey_eq_zero_of_lookup_none name st.active_streams hA
      have hc1 : countKey name (start_stream env1 now1 st name).state.active_streams = 1 := by
        rw [hactive, countKey_ainsert_of_lookup_none name _ st.active_streams hA, hc0]
      simpa [countKey_ainsert_of_lookup_some name _ _ _ hlook] using hc1

/-- Witness for C4 at a concrete input: cam is started twice from the
empty registry; exactly one WorkerHandle remains. -/
theorem start_idempotent_witness :
    countKey "cam" (start_stream demoSenv 1 (start_stream demoSenv 0 demoInit "cam").state "cam").state.active_streams = 1 :=
  (start_idempotent.2 demoSenv demoSenv 0 1 demoInit "cam" (by decide) (by decide)).2.2.2

/-- C5: whenever start returns an error (memory floor, unknown
configuration, directory preparation failure or spawn failure) both the
active map and the recovery map are exactly as before the call and no
process was spawned. -/
theorem start_error_preserves_state (env : StartEnv) (now : Nat) (st : AppState)
    (name : String) (h : (start_stream env now st name).res ≠ .ok) :
    (start_stream env now st name).state.active_streams = st.active_streams ∧
    (start_stream env now st name).state.recovery_states = st.recovery_states ∧
    (start_stream env now st name).spawned = false := by
  obtain ⟨h1, h2⟩ := start_stream_error_frame env now st name h
  exact ⟨by rw [h1], by rw [h1], h2⟩

/-- Witness for C5 at a concrete input: starting an unconfigured name
fails (configuration not found) and changes neither map. -/
theorem start_error_preserves_state_witness :
    (start_stream demoSenv 3 demoInit "ghost").state.active_streams = demoInit.active_streams ∧
    (start_stream demoSenv 3 demoInit "ghost").state.recovery_states = demoInit.recovery_states ∧
    (start_stream demoSenv 3 demoInit "ghost").spawned = false :=
  start_error_preserves_state demoSenv 3 demoInit "ghost" (by decide)

/-- C6: stopping a stream with no active entry returns success and leaves
the whole registry unchanged; stop never returns an error for any input
(a kill failure is swallowed) and never touches the recovery map. -/
theorem stop_absent_noop :
    (∀ (killOk : Bool) (st : AppState) (name : String),
      alookup name st.active_streams = none →
      stop_stream killOk st name = (.ok, st)) ∧
    (∀ (killOk : Bool) (st : AppState) (name : String),
      (stop_stream killOk st name).1 = .ok ∧
      (stop_stream killOk st name).2.recovery_states = st.recovery_states) := by
  constructor
  · intro killOk st name h
    have he : aerase name st.active_streams = st.active_streams :=
      aerase_eq_of_lookup_none name _ h
    cases killOk <;> simp [stop_stream, he]
  · intro killOk st name
    refine ⟨stop_stream_fst _ _ _, ?_⟩
    rw [stop_stream_snd]

/-- Witness for C6 at a concrete input. -/
theorem stop_absent_noop_witness :
    stop_stream true demoInit "cam" = (.ok, demoInit) :=
  stop_absent_noop.1 true demoInit "cam" (by decide)

/-- C8: a chunk (.ts) request naming a stream with no active entry is a
hard not-found: no worker is started, nothing is spawned and the registry
is unchanged — only .m3u8 requests reach the auto-start call. -/
theorem chunk_request_no_autostart (senv : StartEnv) (now : Nat) (st : AppState)
    (stream_name file_name : String)
    (hts : ends_with file_name ".ts" = true)
    (hinactive : alookup stream_name st.active_streams = none) :
    serve_hls_file senv now st stream_name file_name =
      { step := .notRunning, spawned := false, state := st } := by
  have hm3u8 : ends_with file_name ".m3u8" = false := ts_not_m3u8 file_name hts
  simp [serve_hls_file, hm3u8, hinactive]

/-- Witness for C8 at a concrete input. -/
theorem chunk_request_no_autostart_witness :
    serve_hls_file demoSenv 5 demoInit "cam" "seg0.ts" =
      { step := .notRunning, spawned := false, state := demoInit } :=
  chunk_request_no_autostart demoSenv 5 demoInit "cam" "seg0.ts" (by decide) (by decide)

/-- C9: the memory floor is best-effort: for a not-yet-active stream the
out-of-resources error occurs exactly when the memory probe succeeds and
reports fewer than 5120 KB available, and a failed probe makes the call
behave exactly as if memory were sufficient. -/
theorem memory_floor_best_effort (env : StartEnv) (now : Nat) (st : AppState)
    (name : String) (hA : alookup name st.active_streams = none) :
    ((start_stream env now st name).res = .errMem ↔
      ∃ a, env.mem = some a ∧ a < 5120) ∧
    (env.mem = none →
      start_stream env now st name = start_stream { env with mem := some 5120 } now st name) := by
  constructor
  · rw [start_stream_errMem_iff env now st name hA]
    cases hm : env.mem with
    | none => simp [memTooLow]
    | some a => simp [memTooLow]
  · intro hm
    exact start_stream_mem_failure_eq env now st name hm

/-- Witness for C9 at a concrete input: 100 KB available fails the floor. -/
theorem memory_floor_best_effort_witness :
    (start_stream { mem := some 100, dirOk := true, spawn := some 1 } 0 demoInit "cam").res = .errMem :=
  (memory_floor_best_effort { mem := some 100, dirOk := true, spawn := some 1 } 0 demoInit "cam"
    (by decide)).1.mpr ⟨100, rfl, by decide⟩

/-- Config for the idle-eviction scenario: `cam` with `idle_timeout = 5`
and `auto_start = false`. -/
def idleCfg : AppConfig :=
  { streams := [{ name := "cam", source := "rtsp://upstream/cam", output_args := [],
                  auto_start := false, idle_timeout := 5, retry := demoRetry }] }

/-- A registry with `cam` active (pid 7, last accessed at t = 0) and a
pre-existing recovery entry. -/
def idleSt : AppState :=
  { config := idleCfg,
    active_streams := [("cam", { pid := 7, last_accessed := 0, started_at := 0 })],
    recovery_states := [("cam", { crash_count := 2, next_retry_at := some 99 })] }

/-- Tick environment at t = 10 where every process is still running. -/
def idleEnv : TickEnv :=
  { now := 10, poll := fun _ => .running, killOk := fun _ => true,
    senv := fun _ => demoSenv }

/-- Tick environment at t = 1 where every liveness poll errors out. -/
def errEnv : TickEnv :=
  { now := 1, poll := fun _ => .pollErr, killOk := fun _ => true,
    senv := fun _ => demoSenv }

/-- C1: the give-up boundary does not hold on the code. In the concrete
scenario (retry policy max_attempts = 3, initial_backoff = 2,
max_backoff = 60; every spawn succeeds; every spawned process is dead by
the next tick) the stream crashes at the ticks at t = 0, 4 and 8 and is
automatically restarted at t = 2 and t = 6. After the third crash
(t = 8) the recovery state is crash_count = 1, next_retry_at = Some 10 —
not None — because each successful restart reset crash_count to 0, and
the tick at t = 10 performs a fourth automatic restart. A manual start
still succeeds and resets crash_count, as the claim's last part says. -/
theorem give_up_boundary_trace :
    alookup "cam" (demoRun [0, 2, 4, 6, 8]).recovery_states =
      some { crash_count := 1, next_retry_at := some 10 } ∧
    alookup "cam" (demoRun [0, 2, 4, 6, 8]).recovery_states ≠
      some { crash_count := 3, next_retry_at := none } ∧
    (alookup "cam" (demoRun [0, 2, 4, 6, 8, 10]).active_streams).isSome = true ∧
    (start_stream demoSenv 9 (demoRun [0, 2, 4, 6, 8]) "cam").res = .ok ∧
    alookup "cam" (start_stream demoSenv 9 (demoRun [0, 2, 4, 6, 8]) "cam").state.recovery_states =
      some { crash_count := 0, next_retry_at := none } := by
  exact ⟨by decide, by decide, by decide, by decide, by decide⟩

/-- C2 counterexample: with initial_backoff = 2 and max_backoff = 60 the
delays computed on successive consecutive crashes are not 2, 4, 8, ....
The first crash (tick at t = 0) schedules the retry at t = 2 (delay 2);
after the successful automatic restart at t = 2, the second consecutive
crash (tick at t = 4) schedules the retry at t = 6 — a delay of 2 again,
not the claimed 4 (which would give crash_count = 2 and a retry at
t = 8) — because the restart reset crash_count to 0. -/
theorem second_crash_backoff_not_doubled :
    alookup "cam" (demoRun [0]).recovery_states =
      some { crash_count := 1, next_retry_at := some 2 } ∧
    alookup "cam" (demoRun [0, 2, 4]).recovery_states =
      some { crash_count := 1, next_retry_at := some 6 } ∧
    alookup "cam" (demoRun [0, 2, 4]).recovery_states ≠
      some { crash_count := 2, next_retry_at := some 8 } := by
  exact ⟨by decide, by decide, by decide⟩

/-- C2 (amended): the phase-3 backoff formula with initial_backoff = 2
and max_backoff = 60, as a function of the stored crash_count, yields
exactly 2, 4, 8, 16, 32, 60, 60 at crash_count = 0..6; every computed
delay is at most max_backoff; and the delay is non-decreasing in
crash_count below the u64 overflow boundary (crash_count < 62). In
executions the stored crash_count is reset to 0 by every successful
restart, so successive consecutive crashes all compute the initial
delay. -/
theorem backoff_formula_sequence :
    (List.range 7).map (backoff_u64 60 2) = [2, 4, 8, 16, 32, 60, 60] ∧
    (∀ cc : Nat, backoff_u64 60 2 cc ≤ 60) ∧
    (∀ cc : Nat, cc < 62 → backoff_u64 60 2 cc ≤ backoff_u64 60 2 (cc + 1)) := by
  refine ⟨by decide, ?_, ?_⟩
  · intro cc
    exact Nat.min_le_left _ _
  · intro cc h
    unfold backoff_u64
    have hlt1 : (2 : Nat) ^ cc < 2 ^ 64 :=
      Nat.pow_lt_pow_right one_lt_two (by omega)
    have hlt2 : (2 : Nat) ^ (cc + 1) < 2 ^ 64 :=
      Nat.pow_lt_pow_right one_lt_two (by omega)
    rw [Nat.mod_eq_of_lt hlt1, Nat.mod_eq_of_lt hlt2]
    have e1 : (2 : Nat) * 2 ^ cc = 2 ^ (cc + 1) := by ring
    have e2 : (2 : Nat) * 2 ^ (cc + 1) = 2 ^ (cc + 2) := by ring
    rw [e1, e2]
    have hlt4 : (2 : Nat) ^ (cc + 2) < 2 ^ 64 :=
      Nat.pow_lt_pow_right one_lt_two (by omega)
    rw [Nat.mod_eq_of_lt hlt2, Nat.mod_eq_of_lt hlt4]
    exact min_le_min (Nat.le_refl 60) (Nat.pow_le_pow_right (by omega) (by omega))

/-- Witness for the amended C2 at a concrete input. -/
theorem backoff_formula_sequence_witness :
    3 < 62 ∧ backoff_u64 60 2 3 ≤ backoff_u64 60 2 4 :=
  ⟨by decide, backoff_formula_sequence.2.2 3 (by decide)⟩

/-- C7: idle reclamation is a pure resource decision. A live worker whose
idle timeout is non-zero and exceeded is gone from the active map after
the stop phases of the tick (phases 1 to 3), and its recovery entry —
crash_count and next_retry_at — is exactly what it was before the tick:
the stop path never touches RecoveryState (only a later restart,
phase 4, may). -/
theorem idle_reclaim_frame (env : TickEnv) (st : AppState) (name : String)
    (rt : StreamRuntime) (c : StreamConfig)
    (hnodup : (st.active_streams.map Prod.fst).Nodup)
    (hact : alookup name st.active_streams = some rt)
    (hpoll : env.poll rt.pid ≠ .exited)
    (hcfg : st.config.streams.find? (fun s => s.name == name) = some c)
    (htimeout : 0 < c.idle_timeout)
    (hidle : c.idle_timeout < env.now - rt.last_accessed) :
    alookup name (tickAfterBackoff env st).active_streams = none ∧
    alookup name (tickAfterBackoff env st).recovery_states =
      alookup name st.recovery_states := by
  have hiex : idleExpired st.config env.now name rt = true := by
    simp [idleExpired, hcfg, htimeout, hidle]
  have hspec := phase1_lookup_spec env st.config st.active_streams name rt hnodup hact
  have hkill : name ∈ tickKills env st := hspec.2.mpr ⟨hpoll, hiex⟩
  have hnocrash : name ∉ tickCrashes env st := fun hm => hpoll (hspec.1.mp hm)
  constructor
  · show alookup name (tickAfterStops env st).active_streams = none
    have hact2 : (tickAfterStops env st).active_streams =
        (tickKills env st).foldl (fun m n => aerase n m)
          (tickAfterScan env st).active_streams := phase2_active env _ _
    rw [hact2]
    exact alookup_foldl_aerase_of_mem name _ _ hkill
  · have hrec2 : (tickAfterStops env st).recovery_states = st.recovery_states :=
      phase2_recovery env _ _
    show alookup name
      (phase3 env st.config (tickCrashes env st) (tickAfterStops env st).recovery_states) =
      alookup name st.recovery_states
    rw [hrec2]
    exact alookup_phase3_not_mem env st.config _ st.recovery_states name hnocrash

/-- Witness for C7 at a concrete input: cam, idle for 10 s with a 5 s
timeout, is evicted while its recovery entry (crash_count 2,
next_retry_at Some 99) is untouched. -/
theorem idle_reclaim_frame_witness :
    alookup "cam" (tickAfterBackoff idleEnv idleSt).active_streams = none ∧
    alookup "cam" (tickAfterBackoff idleEnv idleSt).recovery_states =
      alookup "cam" idleSt.recovery_states :=
  idle_reclaim_frame idleEnv idleSt "cam"
    { pid := 7, last_accessed := 0, started_at := 0 }
    { name := "cam", source := "rtsp://upstream/cam", output_args := [],
      auto_start := false, idle_timeout := 5, retry := demoRetry }
    (by decide) (by decide) (by decide) (by decide) (by decide) (by decide)

/-- C10: phase-1 classification. A worker is queued as crashed (and is
out of the active map at the end of phase 1) exactly when its
non-blocking poll reports the process exited; when the poll itself
errors, the worker stays in the active map and is queued for a stop
exactly when the idle-timeout test fires. -/
theorem crash_classification_iff (env : TickEnv) (st : AppState) (name : String)
    (rt : StreamRuntime)
    (hnodup : (st.active_streams.map Prod.fst).Nodup)
    (hact : alookup name st.active_streams = some rt) :
    (name ∈ tickCrashes env st ↔ env.poll rt.pid = .exited) ∧
    (env.poll rt.pid = .exited →
      alookup name (tickAfterScan env st).active_streams = none) ∧
    (env.poll rt.pid = .pollErr →
      alookup name (tickAfterScan env st).active_streams = some rt ∧
      (name ∈ tickKills env st ↔ idleExpired st.config env.now name rt = true)) := by
  have hspec := phase1_lookup_spec env st.config st.active_streams name rt hnodup hact
  refine ⟨hspec.1, ?_, ?_⟩
  · intro hp
    have hmem : name ∈ tickCrashes env st := hspec.1.mpr hp
    show alookup name (removeCrashed (tickCrashes env st) st.active_streams) = none
    exact alookup_foldl_aerase_of_mem name _ _ hmem
  · intro hp
    have hne : env.poll rt.pid ≠ .exited := by
      rw [hp]
      exact fun hcon => PollRes.noConfusion hcon
    have hnc : name ∉ tickCrashes env st := fun hm => hne (hspec.1.mp hm)
    refine ⟨?_, ?_, ?_⟩
    · show alookup name (removeCrashed (tickCrashes env st) st.active_streams) = some rt
      rw [removeCrashed, alookup_foldl_aerase_of_not_mem name _ _ hnc]
      exact hact
    · intro hm
      exact (hspec.2.mp hm).2
    · intro hiex
      exact hspec.2.mpr ⟨hne, hiex⟩

/-- Witness for C10 at a concrete input: with an erroring poll, cam stays
in the active map after phase 1. -/
theorem crash_classification_iff_witness :
    alookup "cam" (tickAfterScan errEnv idleSt).active_streams =
      some { pid := 7, last_accessed := 0, started_at := 0 } :=
  ((crash_classification_iff errEnv idleSt "cam"
    { pid := 7, last_accessed := 0, started_at := 0 }
    (by decide) (by decide)).2.2 (by decide)).1

end VtxLink
